import Mathlib

/-!
Verification development for the display-context coordinator
(`src/displaycontext.js`, `src/unnamed/part_002` = `display-context-factory.ts`).

The JavaScript/TypeScript sources are shallowly embedded as pure Lean
functions.  JS `Map` objects become association lists with insert-or-overwrite
semantics (`mapSet`), the shared key-value store's single
`display:activeDisplayContext` key becomes an `Option String`, and every
asynchronous broker interaction (RPC replies, queue listings) is supplied by a
`RestoreEnv` record of reply functions, so that each method becomes a function
of its inputs with its effects (published events, issued RPCs, store writes)
recorded in its result.
-/

/-- Map of a JS string. -/
abbrev Str := String

/-- One entry of the broker's queue listing (`io.mq.getQueues()` reply). -/
structure Queue where
  name : String
  state : String
deriving DecidableEq

/-- Reply document carrying the `command` and `status` fields every
display-worker reply is expected to have. -/
structure Reply where
  command : String
  status : String
deriving DecidableEq

/-- Worker-reported window options, as found in the `windows` object of a
`get-dw-context-windows-vbo` reply and in a `create-window` reply
(`state.windows[k]` / `res`). -/
structure WorkerWindowOpts where
  windowName : String
  displayName : String
deriving DecidableEq

/-- Caller-declared window settings (one value of the `window_settings`
object).  Fields that the coordinator logic never branches on (bounds,
grids, fonts) are not represented; `displayName` and `windowName` may be
absent in JS and are therefore `Option`s. -/
structure WindowSetting where
  displayName : Option String
  windowName : Option String
deriving DecidableEq

/-- In-memory record for one `DisplayWindow` as stored in
`DisplayContext.displayWindows` (the fields its constructor copies and the
coordinator reads). -/
structure DisplayWindowRec where
  windowName : String
  displayName : String
deriving DecidableEq

/-- In-memory record for one `ViewObject` ("pane") as stored in
`DisplayContext.viewObjects`. -/
structure ViewObjectRec where
  view_id : String
  displayName : String
  windowName : String
deriving DecidableEq

/-- One worker's reply to the `get-dw-context-windows-vbo` broadcast:
`windows` maps window names to their options, `viewObjects` maps view-object
ids to the name of their owning window. -/
structure WorkerState where
  windows : List (String × WorkerWindowOpts)
  viewObjects : List (String × String)
deriving DecidableEq

/-- State of one in-process `DisplayContext` object: its name, the two JS
`Map`s, and the optional `window_settings` object (absent when the context
was constructed with empty settings and no bounds were derived yet). -/
structure DCState where
  name : String
  displayWindows : List (String × DisplayWindowRec)
  viewObjects : List (String × ViewObjectRec)
  window_settings : Option (List (String × WindowSetting))
deriving DecidableEq

/-- JS `Map.prototype.set` / object-property assignment on an association
list: overwrite in place when the key is present, append otherwise. -/
def mapSet {α : Type} (m : List (String × α)) (k : String) (v : α) : List (String × α) :=
  if m.any (fun p => p.1 == k) then
    m.map (fun p => if p.1 == k then (k, v) else p)
  else
    m ++ [(k, v)]

/-- JS `Map.prototype.get`: the value of the first entry with the key. -/
def mapGet {α : Type} (m : List (String × α)) (k : String) : Option α :=
  (m.find? (fun p => p.1 == k)).map (fun p => p.2)

/-- JS `Map.prototype.delete`: drop every entry with the key. -/
def mapDelete {α : Type} (m : List (String × α)) (k : String) : List (String × α) :=
  m.filter (fun p => p.1 != k)

/-- Key list of a map, in insertion order. -/
def mapKeys {α : Type} (m : List (String × α)) : List String :=
  m.map (fun p => p.1)

/-- Char-list test for `pat` being a prefix of `l` (structural, so the
kernel can evaluate it on literals). -/
def startsWithL : List Char → List Char → Bool
  | _, [] => true
  | [], _ :: _ => false
  | a :: as, b :: bs => a == b && startsWithL as bs

/-- Char-list substring occurrence test. -/
def containsL : List Char → List Char → Bool
  | [], pat => pat.isEmpty
  | a :: as, pat => startsWithL (a :: as) pat || containsL as pat

/-- JS `s.indexOf(pat) > -1`: `pat` occurs somewhere in `s`. -/
def containsSub (s pat : String) : Bool :=
  containsL s.data pat.data

/-- Char-list removal of the first occurrence of `pat`. -/
def replaceFirstL : List Char → List Char → List Char
  | [], _ => []
  | a :: as, pat =>
      if startsWithL (a :: as) pat && !pat.isEmpty then (a :: as).drop pat.length
      else a :: replaceFirstL as pat

/-- JS `s.replace(pat, '')`, which removes only the first occurrence of
`pat`. -/
def replaceFirst (s pat : String) : String :=
  ⟨replaceFirstL s.data pat.data⟩

/-- Worker discovery shared by `_executeInAvailableDisplays`, `getDisplays`
and `list`: keep the queues whose `state` is `running` or `live` and whose
name contains `rpc-display-`, in listing order. -/
def availableDisplayNames (qs : List Queue) : List String :=
  (qs.filter (fun q => (q.state == "running" || q.state == "live")
      && containsSub q.name "rpc-display-")).map (fun q => q.name)

/-- Fan-out executor `DisplayContext._executeInAvailableDisplays(cmd)`:
discover the live display queues, send `cmd` to each of them (the reply of
queue `q` is `reply q`), and resolve with all replies; with zero discovered
queues it rejects with the `No display-worker found` error.  `cmdStr` stands
for the `JSON.stringify(cmd)` text interpolated into the error message. -/
def executeInAvailableDisplays {α : Type} (qs : List Queue) (reply : String → α)
    (cmdStr : String) : Except String (List α) :=
  if (availableDisplayNames qs).length > 0 then
    .ok ((availableDisplayNames qs).map reply)
  else
    .error ("No display-worker found while executing: " ++ cmdStr)

/-- Environment of broker replies for one run: the queue listing and one
reply function per RPC command the coordinator issues. -/
structure RestoreEnv where
  queues : List Queue
  /-- reply of queue `q` to the `get-dw-context-windows-vbo` broadcast -/
  describeReply : String → WorkerState
  /-- reply of queue `q` to the `get-window-bounds` broadcast -/
  boundsReply : String → List (String × WindowSetting)
  /-- confirmed result of a `create-window` request for one declared window -/
  createReply : WindowSetting → WorkerWindowOpts
  /-- reply of queue `q` to a broadcast command (`set-display-context`,
  `hide-display-context`, `close-display-context`, `hide-all-windows`) -/
  callReply : String → String → Reply
  /-- reply to the per-pane `reload` request, by view-object id -/
  reloadReply : String → Reply
  /-- reply of queue `q` to `get-display-bounds`: its `displayName` and an
  opaque rendering of its `bounds` payload -/
  displayBoundsReply : String → String × String
  /-- reply to `create-viewobj` sent to the window named `w`: the confirmed
  view-object options -/
  voReply : String → ViewObjectRec

/-- Constructor fix-up `DisplayContext` applies to a non-empty
`window_settings` argument: every entry gets `windowName = k`, and an entry
whose `displayName` is truthy (present and non-empty) gets it overwritten
with `k` as well. -/
def fixSetting (k : String) (s : WindowSetting) : WindowSetting :=
  let s1 : WindowSetting := { s with windowName := some k }
  match s1.displayName with
  | some d => if d = "" then s1 else { s1 with displayName := some k }
  | none => s1

/-- The `DisplayContext` constructor: empty maps; `window_settings` is kept
(and fixed up per key) only when the argument object is non-empty. -/
def DisplayContextInit (name : String) (ws : List (String × WindowSetting)) : DCState :=
  if ws.isEmpty then ⟨name, [], [], none⟩
  else ⟨name, [], [], some (ws.map (fun kv => (kv.1, fixSetting kv.1 kv.2)))⟩

/-- Report passed to the registered `displayWorkerQuitHandler` by
`DisplayContext._clean`. -/
structure CleanReport where
  closedDisplay : String
  closedWindows : List String
  closedViewObjects : List String
deriving DecidableEq

/-- The cleanup routine `DisplayContext._clean(closedDisplay)`: collect the
keys of the display windows owned by the closed display and delete them,
then do the same for the view objects, and report both key lists (the
payload handed to the quit callback when one is registered). -/
def _clean (dc : DCState) (closedDisplay : String) : DCState × CleanReport :=
  let closedWindows :=
    (dc.displayWindows.filter (fun p => p.2.displayName == closedDisplay)).map (fun p => p.1)
  let dw1 := closedWindows.foldl (fun m w => mapDelete m w) dc.displayWindows
  let vboToRemove :=
    (dc.viewObjects.filter (fun p => p.2.displayName == closedDisplay)).map (fun p => p.1)
  let vo1 := vboToRemove.foldl (fun m v => mapDelete m v) dc.viewObjects
  ({ dc with displayWindows := dw1, viewObjects := vo1 },
   ⟨closedDisplay, closedWindows, vboToRemove⟩)

/-- The two broker signals the `DisplayContext` constructor subscribes to:
the `display.removed` topic (payload is the worker identity), and the
broker-native queue-deleted notification (payload is the queue name). -/
inductive RemovalEvent
  | topicRemoved (payload : String)
  | queueDeleted (queueName : String)
deriving DecidableEq

/-- Dispatch of a removal event as wired in the `DisplayContext`
constructor: a `display.removed` message always invokes `_clean` with its
payload; a queue-deleted notification invokes `_clean` with the queue name
stripped of its first `rpc-display-` occurrence, and only when the queue
name contains `rpc-display-`. -/
def handleRemoval (dc : DCState) (ev : RemovalEvent) : Option (DCState × CleanReport) :=
  match ev with
  | .topicRemoved payload => some (_clean dc payload)
  | .queueDeleted queueName =>
      if containsSub queueName "rpc-display-" then
        some (_clean dc (replaceFirst queueName "rpc-display-"))
      else
        none

/-- Window-tallying half of the `states.forEach` loop of
`restoreFromDisplayWorkerStates`: for every reported window entry,
insert/overwrite a `DisplayWindow` record and bump `windowCount`. -/
def addWindows (dc : DCState) (cnt : Nat) (ws : List (String × WorkerWindowOpts)) :
    DCState × Nat :=
  ws.foldl (fun a kv =>
    let d := a.1
    ({ d with displayWindows :=
        mapSet d.displayWindows kv.1 ⟨kv.2.windowName, kv.2.displayName⟩ }, a.2 + 1))
    (dc, cnt)

/-- Pane half of the `states.forEach` loop: a reported view object is
registered only when its declared owning window resolves in the
`displayWindows` map built so far; an unresolvable entry is skipped. -/
def addPanes (dc : DCState) (ps : List (String × String)) : DCState :=
  ps.foldl (fun d kv =>
    match mapGet d.displayWindows kv.2 with
    | some wn =>
        { d with viewObjects :=
            mapSet d.viewObjects kv.1 ⟨kv.1, wn.displayName, wn.windowName⟩ }
    | none => d) dc

/-- Processing of one worker's reply in the `states.forEach` loop: windows
first, then view objects. -/
def restoreStep (a : DCState × Nat) (st : WorkerState) : DCState × Nat :=
  let b := addWindows a.1 a.2 st.windows
  (addPanes b.1 st.viewObjects, b.2)

/-- The `this.displayWindows.clear(); this.viewObjects.clear();` prologue. -/
def clearMaps (dc : DCState) : DCState :=
  { dc with displayWindows := [], viewObjects := [] }

/-- `DisplayContext.getWindowBounds()`: resolve with the cached
`window_settings` when present and non-empty; otherwise broadcast
`get-window-bounds`, merge the per-worker maps into one bounds table, cache
it as `window_settings` and resolve with it. -/
def getWindowBounds (dc : DCState) (env : RestoreEnv) :
    Except String (DCState × List (String × WindowSetting)) :=
  match dc.window_settings with
  | some ws =>
      if ws.isEmpty then
        match executeInAvailableDisplays env.queues env.boundsReply "get-window-bounds" with
        | .error e => .error e
        | .ok bounds =>
            let boundMap := bounds.foldl
              (fun acc b => b.foldl (fun a kv => mapSet a kv.1 kv.2) acc) []
            .ok ({ dc with window_settings := some boundMap }, boundMap)
      else .ok (dc, ws)
  | none =>
      match executeInAvailableDisplays env.queues env.boundsReply "get-window-bounds" with
      | .error e => .error e
      | .ok bounds =>
          let boundMap := bounds.foldl
            (fun acc b => b.foldl (fun a kv => mapSet a kv.1 kv.2) acc) []
          .ok ({ dc with window_settings := some boundMap }, boundMap)

/-- `DisplayContext.show()` (named `showContext` because `show` is a Lean
keyword): broadcast `set-display-context` and, on success, write this
context's name to the `display:activeDisplayContext` store key; resolves
with the broadcast replies.  The result pairs the new store value with the
replies. -/
def showContext (dc : DCState) (env : RestoreEnv) :
    Except String (Option String × List Reply) :=
  match executeInAvailableDisplays env.queues
      (fun q => env.callReply q "set-display-context") "set-display-context" with
  | .error e => .error e
  | .ok m => .ok (some dc.name, m)

/-- Result of `DisplayContext.initialize(options)`: the context state with
the confirmed windows added, the new store value, the windowName-keyed map
of confirmed results it resolves with, and the list of declared window keys
a `create-window` request was issued for. -/
structure InitResult where
  dc : DCState
  store : Option String
  map : List (String × WorkerWindowOpts)
  created : List String
deriving DecidableEq

/-- `DisplayContext.initialize(options)` (named `initContext`): reject when
`options` is empty; otherwise `show()` first, then issue one `create-window`
request per declared window and populate `displayWindows` from the
confirmed results, resolving with the windowName-keyed result map. -/
def initContext (dc : DCState) (env : RestoreEnv)
    (options : List (String × WindowSetting)) : Except String InitResult :=
  if options.isEmpty then
    .error "Cannot initialize display context without proper window_settings."
  else
    match showContext dc env with
    | .error e => .error e
    | .ok (store1, _) =>
        let rs := options.map (fun kv => env.createReply kv.2)
        let dc1 := rs.foldl (fun d res =>
          { d with displayWindows :=
              mapSet d.displayWindows res.windowName ⟨res.windowName, res.displayName⟩ }) dc
        let resMap := rs.foldl (fun acc res => mapSet acc res.windowName res) []
        .ok ⟨dc1, store1, resMap, options.map (fun kv => kv.1)⟩

/-- Branch taken by a reconciliation run. -/
inductive RestoreBranch
  | initialization
  | resetShow
  | showOnly
deriving DecidableEq

/-- JS value a reconciliation (or `setActive`) resolves with. -/
inductive JSVal
  | jsFalse
  | str (s : String)
  | replies (rs : List Reply)
  | windowMap (m : List (String × WorkerWindowOpts))
deriving DecidableEq

/-- Result of one `restoreFromDisplayWorkerStates` run: the context state,
the `display:activeDisplayContext` store value it leaves behind, the value
the promise resolves with, the branch taken, the declared window keys a
`create-window` request was issued for, and the view-object ids a `reload`
request was issued for. -/
structure RestoreResult where
  dc : DCState
  store : Option String
  value : JSVal
  branch : RestoreBranch
  created : List String
  reloaded : List String
deriving DecidableEq

/-- `DisplayContext.restoreFromDisplayWorkerStates(reset)`: broadcast
`get-dw-context-windows-vbo`, clear both maps, replay every reply through
the `states.forEach` loop tallying `windowCount`, then branch: with
`windowCount === 0` derive bounds and run `initialize`; otherwise `show()`
and, when `reset` is set, additionally reload every known view object,
resolving with the reload results. -/
def restoreFromDisplayWorkerStates (dc0 : DCState) (reset : Bool) (env : RestoreEnv) :
    Except String RestoreResult :=
  match executeInAvailableDisplays env.queues env.describeReply
      "get-dw-context-windows-vbo" with
  | .error e => .error e
  | .ok states =>
      let p := states.foldl restoreStep (clearMaps dc0, 0)
      if p.2 = 0 then
        match getWindowBounds p.1 env with
        | .error e => .error e
        | .ok (dc2, bounds) =>
            match initContext dc2 env bounds with
            | .error e => .error e
            | .ok q =>
                .ok ⟨q.dc, q.store, .windowMap q.map, .initialization, q.created, []⟩
      else if reset then
        match showContext p.1 env with
        | .error e => .error e
        | .ok (store1, _) =>
            let ids := p.1.viewObjects.map (fun kv => kv.1)
            .ok ⟨p.1, store1, .replies (ids.map env.reloadReply), .resetShow, [], ids⟩
      else
        match showContext p.1 env with
        | .error e => .error e
        | .ok (store1, m) =>
            .ok ⟨p.1, store1, .replies m, .showOnly, [], []⟩

/-- Result of `DisplayContext.close()`: the context state and store value it
leaves behind, the aggregated reply list it resolves with, and the payloads
of the `display.displayContext.closed` events it published. -/
structure CloseResult where
  dc : DCState
  store : Option String
  value : List Reply
  closedEvents : List (List Reply)
deriving DecidableEq

/-- `DisplayContext.close()`: broadcast `close-display-context` and collect
every reply into `map`; a reply whose `command` is `hide-display-context`
sets `isHidden`.  Only when no reply did so are both maps cleared, the
`display:activeDisplayContext` key deleted if it still holds this context's
name, and a `display.displayContext.closed` event published with the
aggregated replies as its details; the call resolves with `map` either
way. -/
def closeContext (dc : DCState) (store : Option String) (env : RestoreEnv) :
    Except String CloseResult :=
  match executeInAvailableDisplays env.queues
      (fun q => env.callReply q "close-display-context") "close-display-context" with
  | .error e => .error e
  | .ok m =>
      if !(m.any (fun res => res.command == "hide-display-context")) then
        .ok ⟨clearMaps dc, if store = some dc.name then none else store, m, [m]⟩
      else
        .ok ⟨dc, store, m, []⟩

/-- Settled state of the promise `DisplayContext.createViewObject` returns. -/
inductive CVOOutcome
  | created (viewId : String)
  | rejected (msg : String)
  | neverSettles
deriving DecidableEq

/-- Result of a `createViewObject` call: its outcome plus the context state
and store value it leaves behind, and whether `initialize` was invoked. -/
structure CVOResult where
  outcome : CVOOutcome
  dc : DCState
  store : Option String
  initRan : Bool
deriving DecidableEq

/-- The `bounds` post-processing loop of `createViewObject`: for every key
`k`, default `displayName` to `k` when it is `undefined`, record whether the
requested window name equals some key (`windowNameCheck`), and set
`windowName` to `k`; returns the rewritten bounds and the check flag. -/
def prepBounds (windowName : String) (bounds : List (String × WindowSetting)) :
    List (String × WindowSetting) × Bool :=
  bounds.foldl (fun acc kv =>
    let s0 := kv.2
    let s1 : WindowSetting :=
      match s0.displayName with
      | none => { s0 with displayName := some kv.1 }
      | some _ => s0
    let s2 : WindowSetting := { s1 with windowName := some kv.1 }
    (acc.1 ++ [(kv.1, s2)], acc.2 || (windowName == kv.1))) ([], false)

/-- `DisplayContext.createViewObject(options, windowName)`: when the window
is already in the cache, send `create-viewobj` through it and register the
confirmed view object.  Otherwise fetch/derive bounds and post-process them;
when the requested name is among the bounds keys the promise executor only
invokes `initialize(bounds)` and calls neither `resolve` nor `reject`, so
the chained retry callback never runs and the returned promise never
settles (`.neverSettles`); when it is not, the executor rejects with the
windowName-not-defined error. -/
def createViewObject (dc : DCState) (store : Option String) (env : RestoreEnv)
    (windowName : String) : CVOResult :=
  match mapGet dc.displayWindows windowName with
  | some w =>
      let vo := env.voReply w.windowName
      ⟨.created vo.view_id,
       { dc with viewObjects := mapSet dc.viewObjects vo.view_id vo },
       store, false⟩
  | none =>
      match getWindowBounds dc env with
      | .error e => ⟨.rejected e, dc, store, false⟩
      | .ok (dc1, bounds) =>
          let pb := prepBounds windowName bounds
          if pb.2 then
            match initContext dc1 env pb.1 with
            | .ok q => ⟨.neverSettles, q.dc, q.store, true⟩
            | .error _ => ⟨.neverSettles, dc1, store, true⟩
          else
            ⟨.rejected ("windowName " ++ windowName ++
                " is not defined by the user. Inferencing based on existing display-workers also failed."),
             dc1, store, false⟩

/-- Payload of one `display.displayContext.changed` topic event
(`details.displayContext` / `details.lastDisplayContext`; the latter is the
store's previous value and may be null). -/
structure ChangedEvent where
  displayContext : String
  lastDisplayContext : Option String
deriving DecidableEq

/-- Result of `DisplayContextFactory.setActive`: the store value left
behind, the value the promise resolves with, the `changed` events
published, and whether reconciliation ran. -/
structure SetActiveOutcome where
  store : Option String
  value : JSVal
  events : List ChangedEvent
  reconcileRan : Bool
deriving DecidableEq

/-- `DisplayContextFactory.setActive(display_ctx_name, reset)`: atomically
`getset` the `display:activeDisplayContext` key to the requested name.  When
the previous value differs, reconcile a freshly constructed
`DisplayContext` (empty settings), publish `display.displayContext.changed`
with the new and previous names, and resolve with the reconciliation
result; when it is already the requested name, resolve with `false` without
reconciling or publishing. -/
def setActive (store : Option String) (ctx : String) (reset : Bool) (env : RestoreEnv) :
    Except String SetActiveOutcome :=
  let prev := store
  if prev ≠ some ctx then
    match restoreFromDisplayWorkerStates (DisplayContextInit ctx []) reset env with
    | .error e => .error e
    | .ok r => .ok ⟨r.store, r.value, [⟨ctx, prev⟩], true⟩
  else
    .ok ⟨some ctx, .jsFalse, [], false⟩

/-- `DisplayContextFactory.getActive()`: read the
`display:activeDisplayContext` key; a missing or falsy (empty) value
rejects with `No display context is active`; otherwise construct a
`DisplayContext` for the stored name with empty settings, reconcile it, and
resolve with it. -/
def getActive (store : Option String) (env : RestoreEnv) : Except String DCState :=
  match store with
  | none => .error "No display context is active"
  | some m =>
      if m = "" then .error "No display context is active"
      else
        match restoreFromDisplayWorkerStates (DisplayContextInit m []) false env with
        | .error e => .error e
        | .ok r => .ok r.dc

/-- `DisplayContextFactory.getDisplays()`: discover the live display queues,
ask each for `get-display-bounds`, and build the map from reported
`displayName` to bounds. -/
def getDisplays (env : RestoreEnv) : List (String × String) :=
  (availableDisplayNames env.queues).foldl (fun acc dm =>
    let r := env.displayBoundsReply dm
    mapSet acc r.1 r.2) []

/-- `DisplayContextFactory.hideAll()`: send `hide-all-windows` to
`rpc-display-` + every key of `getDisplays()`, then unconditionally delete
the `display:activeDisplayContext` key and resolve with the array of
per-display replies.  The result pairs the store value left behind with the
resolved reply list. -/
def hideAll (store : Option String) (env : RestoreEnv) : Option String × List Reply :=
  let m := getDisplays env
  let replies := m.map (fun kv => env.callReply ("rpc-display-" ++ kv.1) "hide-all-windows")
  (none, replies)

/-! ### Library lemmas about the embedded JS `Map` operations -/

theorem foldl_preserves {α β : Type} (f : α → β → α) (P : α → Prop) :
    ∀ (l : List β) (a : α), P a → (∀ x b, b ∈ l → P x → P (f x b)) → P (l.foldl f a) := by
  intro l
  induction l with
  | nil => intro a ha _; simpa using ha
  | cons b bs ih =>
      intro a ha hf
      simp only [List.foldl_cons]
      exact ih (f a b) (hf a b (List.mem_cons_self b bs) ha)
        (fun x c hc hx => hf x c (List.mem_cons_of_mem b hc) hx)

theorem mapSet_mem {α : Type} {m : List (String × α)} {k : String} {v : α} {p : String × α}
    (hp : p ∈ mapSet m k v) : p = (k, v) ∨ p ∈ m := by
  unfold mapSet at hp
  by_cases h : m.any (fun q => q.1 == k)
  · rw [if_pos h] at hp
    rcases List.mem_map.mp hp with ⟨q, hq, rfl⟩
    by_cases hk : q.1 == k
    · left; simp [hk]
    · right; simpa [hk] using hq
  · rw [if_neg h] at hp
    rcases List.mem_append.mp hp with h1 | h1
    · right; exact h1
    · left; simpa using h1

theorem mapSet_fst {α : Type} (m : List (String × α)) (k : String) (v : α) (q : String × α) :
    ((if q.1 == k then (k, v) else q) : String × α).1 = q.1 := by
  by_cases hk : q.1 == k
  · simp only [if_pos hk]
    exact (eq_of_beq hk).symm
  · simp [hk]

theorem mapKeys_mapSet {α : Type} {m : List (String × α)} {k k' : String} {v : α} :
    k' ∈ mapKeys (mapSet m k v) ↔ k' = k ∨ k' ∈ mapKeys m := by
  unfold mapSet mapKeys
  by_cases h : m.any (fun q => q.1 == k)
  · rw [if_pos h]
    have hkm : k ∈ m.map (fun p => p.1) := by
      rcases List.any_eq_true.mp h with ⟨q, hq, hqk⟩
      exact List.mem_map.mpr ⟨q, hq, eq_of_beq hqk⟩
    have heq : (m.map (fun p => if p.1 == k then (k, v) else p)).map (fun p => p.1)
        = m.map (fun p => p.1) := by
      rw [List.map_map]
      apply List.map_congr_left
      intro q hq
      simp only [Function.comp_apply]
      exact mapSet_fst m k v q
    rw [heq]
    constructor
    · exact Or.inr
    · rintro (rfl | hm)
      · exact hkm
      · exact hm
  · rw [if_neg h]
    rw [List.map_append]
    simp only [List.mem_append, List.map_cons, List.map_nil, List.mem_singleton]
    tauto

theorem mapGet_isSome_iff {α : Type} {m : List (String × α)} {k : String} :
    (mapGet m k).isSome = true ↔ k ∈ mapKeys m := by
  unfold mapGet mapKeys
  rw [Option.isSome_map']
  rw [List.find?_isSome]
  constructor
  · rintro ⟨p, hp, hpk⟩
    exact List.mem_map.mpr ⟨p, hp, eq_of_beq hpk⟩
  · intro hk
    rcases List.mem_map.mp hk with ⟨p, hp, hpk⟩
    exact ⟨p, hp, by simp [hpk]⟩

theorem mapGet_eq_some_mem {α : Type} {m : List (String × α)} {k : String} {v : α}
    (h : mapGet m k = some v) : (k, v) ∈ m := by
  unfold mapGet at h
  rcases Option.map_eq_some'.mp h with ⟨p, hfind, hsnd⟩
  have hmem := List.mem_of_find?_eq_some hfind
  have hpk := List.find?_some hfind
  have h1 : p.1 = k := eq_of_beq hpk
  have : p = (k, v) := Prod.ext h1 hsnd
  rwa [this] at hmem

theorem mapGet_none_of_not_mem {α : Type} {m : List (String × α)} {k : String}
    (h : k ∉ mapKeys m) : mapGet m k = none := by
  by_cases hs : (mapGet m k).isSome = true
  · exact absurd (mapGet_isSome_iff.mp hs) h
  · rcases Option.not_isSome_iff_eq_none.mp (by simpa using hs) with h1
    exact h1

theorem foldl_mapDelete_eq_filter {α : Type} :
    ∀ (ks : List String) (m : List (String × α)),
    ks.foldl (fun acc k => mapDelete acc k) m = m.filter (fun p => !(ks.contains p.1)) := by
  intro ks
  induction ks with
  | nil =>
      intro m
      simp [List.filter_true]
  | cons k ks ih =>
      intro m
      simp only [List.foldl_cons]
      rw [ih (mapDelete m k)]
      unfold mapDelete
      rw [List.filter_filter]
      apply List.filter_congr
      intro p _
      show (!ks.contains p.1 && (p.1 != k)) = !((k :: ks).contains p.1)
      show (!ks.contains p.1 && !(p.1 == k)) = !(p.1 == k || ks.contains p.1)
      rw [Bool.not_or, Bool.and_comm]

/-! ### Structural lemmas about the reconciliation pipeline -/

theorem foldl_snd_count {α β : Type} (f : α × Nat → β → α × Nat)
    (hf : ∀ a b, (f a b).2 = a.2 + 1) :
    ∀ (l : List β) (a : α × Nat), (l.foldl f a).2 = a.2 + l.length := by
  intro l
  induction l with
  | nil => intro a; simp
  | cons b bs ih =>
      intro a
      rw [List.foldl_cons, ih (f a b), hf a b]
      simp only [List.length_cons]
      omega

theorem addWindows_snd (dc : DCState) (cnt : Nat) (ws : List (String × WorkerWindowOpts)) :
    (addWindows dc cnt ws).2 = cnt + ws.length := by
  unfold addWindows
  exact foldl_snd_count _ (fun a b => rfl) ws (dc, cnt)

theorem addWindows_fst_name (dc : DCState) (cnt : Nat) (ws : List (String × WorkerWindowOpts)) :
    (addWindows dc cnt ws).1.name = dc.name := by
  unfold addWindows
  apply foldl_preserves _ (fun a => a.1.name = dc.name) ws (dc, cnt) rfl
  intro x b _ hx
  exact hx

theorem addWindows_fst_vo (dc : DCState) (cnt : Nat) (ws : List (String × WorkerWindowOpts)) :
    (addWindows dc cnt ws).1.viewObjects = dc.viewObjects := by
  unfold addWindows
  apply foldl_preserves _ (fun a => a.1.viewObjects = dc.viewObjects) ws (dc, cnt) rfl
  intro x b _ hx
  exact hx

theorem addWindows_fst_settings (dc : DCState) (cnt : Nat)
    (ws : List (String × WorkerWindowOpts)) :
    (addWindows dc cnt ws).1.window_settings = dc.window_settings := by
  unfold addWindows
  apply foldl_preserves _ (fun a => a.1.window_settings = dc.window_settings) ws (dc, cnt) rfl
  intro x b _ hx
  exact hx

theorem addPanes_name (dc : DCState) (ps : List (String × String)) :
    (addPanes dc ps).name = dc.name := by
  unfold addPanes
  apply foldl_preserves _ (fun d => d.name = dc.name) ps dc rfl
  intro x b _ hx
  cases hg : mapGet x.displayWindows b.2 with
  | none => simpa [hg] using hx
  | some wn => simpa [hg] using hx

theorem addPanes_dw (dc : DCState) (ps : List (String × String)) :
    (addPanes dc ps).displayWindows = dc.displayWindows := by
  unfold addPanes
  apply foldl_preserves _ (fun d => d.displayWindows = dc.displayWindows) ps dc rfl
  intro x b _ hx
  cases hg : mapGet x.displayWindows b.2 with
  | none => simpa [hg] using hx
  | some wn => simpa [hg] using hx

theorem addPanes_settings (dc : DCState) (ps : List (String × String)) :
    (addPanes dc ps).window_settings = dc.window_settings := by
  unfold addPanes
  apply foldl_preserves _ (fun d => d.window_settings = dc.window_settings) ps dc rfl
  intro x b _ hx
  cases hg : mapGet x.displayWindows b.2 with
  | none => simpa [hg] using hx
  | some wn => simpa [hg] using hx

theorem restoreStep_snd (a : DCState × Nat) (st : WorkerState) :
    (restoreStep a st).2 = a.2 + st.windows.length := by
  unfold restoreStep
  exact addWindows_snd a.1 a.2 st.windows

theorem restoreStep_name (a : DCState × Nat) (st : WorkerState) :
    (restoreStep a st).1.name = a.1.name := by
  unfold restoreStep
  rw [addPanes_name]
  exact addWindows_fst_name a.1 a.2 st.windows

theorem foldl_restoreStep_snd (states : List WorkerState) :
    ∀ (a : DCState × Nat),
    (states.foldl restoreStep a).2 = a.2 + (states.map (fun s => s.windows.length)).sum := by
  induction states with
  | nil => intro a; simp
  | cons s ss ih =>
      intro a
      rw [List.foldl_cons, ih (restoreStep a s), restoreStep_snd]
      simp only [List.map_cons, List.sum_cons]
      omega

theorem foldl_restoreStep_name (states : List WorkerState) (a : DCState × Nat) :
    (states.foldl restoreStep a).1.name = a.1.name := by
  apply foldl_preserves restoreStep (fun x => x.1.name = a.1.name) states a rfl
  intro x st _ hx
  rw [restoreStep_name]
  exact hx

theorem getWindowBounds_ok (dc : DCState) (env : RestoreEnv) (dc2 : DCState)
    (bounds : List (String × WindowSetting))
    (h : getWindowBounds dc env = .ok (dc2, bounds)) :
    dc2.name = dc.name ∧ dc2.displayWindows = dc.displayWindows ∧
      dc2.viewObjects = dc.viewObjects := by
  unfold getWindowBounds at h
  split at h
  next ws hws =>
    split at h
    next hempty =>
      split at h
      next e he => exact absurd h (by simp)
      next bs hbs =>
        rw [Except.ok.injEq] at h
        have h1 : dc2 = { dc with window_settings := some (bs.foldl
            (fun acc b => b.foldl (fun a kv => mapSet a kv.1 kv.2) acc) []) } := by
          have := congrArg Prod.fst h
          simpa using this.symm
        rw [h1]
        exact ⟨rfl, rfl, rfl⟩
    next hempty =>
      rw [Except.ok.injEq] at h
      have h1 : dc2 = dc := by
        have := congrArg Prod.fst h
        simpa using this.symm
      rw [h1]
      exact ⟨rfl, rfl, rfl⟩
  next hws =>
    split at h
    next e he => exact absurd h (by simp)
    next bs hbs =>
      rw [Except.ok.injEq] at h
      have h1 : dc2 = { dc with window_settings := some (bs.foldl
          (fun acc b => b.foldl (fun a kv => mapSet a kv.1 kv.2) acc) []) } := by
        have := congrArg Prod.fst h
        simpa using this.symm
      rw [h1]
      exact ⟨rfl, rfl, rfl⟩

theorem executeInAvailableDisplays_ok {α : Type} {qs : List Queue} {reply : String → α}
    {cmdStr : String} {rs : List α}
    (h : executeInAvailableDisplays qs reply cmdStr = .ok rs) :
    rs = (availableDisplayNames qs).map reply ∧ availableDisplayNames qs ≠ [] := by
  unfold executeInAvailableDisplays at h
  split at h
  next hlen =>
    refine ⟨?_, ?_⟩
    · rw [Except.ok.injEq] at h
      exact h.symm
    · intro hnil
      rw [hnil] at hlen
      simp at hlen
  next hlen =>
    exact absurd h (by simp)

theorem showContext_ok {dc : DCState} {env : RestoreEnv} {store1 : Option String}
    {m : List Reply} (h : showContext dc env = .ok (store1, m)) :
    store1 = some dc.name ∧
      m = (availableDisplayNames env.queues).map
        (fun q => env.callReply q "set-display-context") := by
  unfold showContext at h
  split at h
  next e he => exact absurd h (by simp)
  next ms hms =>
    rw [Except.ok.injEq, Prod.mk.injEq] at h
    rcases h with ⟨h1, h2⟩
    refine ⟨h1.symm, ?_⟩
    rw [← h2]
    exact (executeInAvailableDisplays_ok hms).1

theorem initContext_ok {dc : DCState} {env : RestoreEnv}
    {options : List (String × WindowSetting)} {q : InitResult}
    (h : initContext dc env options = .ok q) :
    q.dc.name = dc.name ∧ q.dc.viewObjects = dc.viewObjects ∧
      q.store = some dc.name ∧ q.created = options.map (fun kv => kv.1) ∧
      (∀ k, k ∈ mapKeys dc.displayWindows → k ∈ mapKeys q.dc.displayWindows) := by
  unfold initContext at h
  split at h
  next hempty => exact absurd h (by simp)
  next hempty =>
    split at h
    next e he => exact absurd h (by simp)
    next store1 m hshow =>
      rw [Except.ok.injEq] at h
      have hst := (showContext_ok hshow).1
      subst h
      refine ⟨?_, ?_, by simpa using hst, rfl, ?_⟩
      · apply foldl_preserves _ (fun d => d.name = dc.name) _ dc rfl
        intro x b _ hx
        exact hx
      · apply foldl_preserves _ (fun d => d.viewObjects = dc.viewObjects) _ dc rfl
        intro x b _ hx
        exact hx
      · intro k hk
        apply foldl_preserves _ (fun d => k ∈ mapKeys d.displayWindows) _ dc hk
        intro x b _ hx
        exact mapKeys_mapSet.mpr (Or.inr hx)

theorem restore_ok_basic {dc0 : DCState} {reset : Bool} {env : RestoreEnv} {r : RestoreResult}
    (h : restoreFromDisplayWorkerStates dc0 reset env = .ok r) :
    r.store = some dc0.name ∧ r.dc.name = dc0.name := by
  simp only [restoreFromDisplayWorkerStates] at h
  split at h
  next e he => exact absurd h (by simp)
  next states hstates =>
    have hname : (states.foldl restoreStep (clearMaps dc0, 0)).1.name = dc0.name :=
      foldl_restoreStep_name states (clearMaps dc0, 0)
    split at h
    next hcount =>
      split at h
      next e he => exact absurd h (by simp)
      next dc2 bounds hgwb =>
        split at h
        next e he => exact absurd h (by simp)
        next q hq =>
          rw [Except.ok.injEq] at h
          subst h
          have h1 := initContext_ok hq
          have h2 := getWindowBounds_ok _ _ _ _ hgwb
          constructor
          · simpa [h2.1, hname] using h1.2.2.1
          · simpa [h2.1, hname] using h1.1
    next hcount =>
      split at h
      next hreset =>
        split at h
        next e he => exact absurd h (by simp)
        next store1 m hshow =>
          rw [Except.ok.injEq] at h
          subst h
          have h1 := showContext_ok hshow
          constructor
          · show store1 = some dc0.name
            rw [h1.1, hname]
          · exact hname
      next hreset =>
        split at h
        next e he => exact absurd h (by simp)
        next store1 m hshow =>
          rw [Except.ok.injEq] at h
          subst h
          have h1 := showContext_ok hshow
          constructor
          · show store1 = some dc0.name
            rw [h1.1, hname]
          · exact hname

/-! ### Sample environments used by witnesses and counterexamples -/

/-- Reply environment with one live display worker `rpc-display-main` that
reports one window `main` and one view object `vo1` owned by `main`. -/
def envSample : RestoreEnv where
  queues := [⟨"rpc-display-main", "running"⟩]
  describeReply := fun _ => ⟨[("main", ⟨"main", "main"⟩)], [("vo1", "main")]⟩
  boundsReply := fun _ => [("main", ⟨some "main", some "main"⟩)]
  createReply := fun _ => ⟨"main", "main"⟩
  callReply := fun _ c => ⟨c, "success"⟩
  reloadReply := fun _ => ⟨"reload", "success"⟩
  displayBoundsReply := fun _ => ("main", "bounds")
  voReply := fun w => ⟨"vo-new", "main", w⟩

/-- Context state `getActive (some "ctx") envSample` resolves with. -/
def dcActiveSample : DCState :=
  ⟨"ctx", [("main", ⟨"main", "main"⟩)], [("vo1", ⟨"vo1", "main", "main"⟩)], none⟩

/-- Outcome of `setActive (some "A") "B" false envSample`. -/
def outSampleAB : SetActiveOutcome :=
  ⟨some "B", .replies [⟨"set-display-context", "success"⟩], [⟨"B", some "A"⟩], true⟩

/-! ### Claim theorems -/

/-- C5: whenever worker discovery yields zero live display-worker
endpoints, the fan-out broadcast fails with the distinct
`No display-worker found` error instead of resolving with an empty reply
list. -/
theorem c5_broadcast_no_workers {α : Type} (qs : List Queue) (reply : String → α)
    (cmdStr : String) (h : availableDisplayNames qs = []) :
    executeInAvailableDisplays qs reply cmdStr =
      .error ("No display-worker found while executing: " ++ cmdStr) ∧
    ∀ rs : List α, executeInAvailableDisplays qs reply cmdStr ≠ .ok rs := by
  unfold executeInAvailableDisplays
  rw [h]
  simp

/-- Witness for C5: a listing with a non-display queue and a stopped
display queue discovers no endpoint, so the `close-display-context`
broadcast rejects with the no-workers error. -/
theorem c5_broadcast_no_workers_witness :
    executeInAvailableDisplays
        [⟨"other-queue", "running"⟩, ⟨"rpc-display-main", "down"⟩]
        (fun q => Reply.mk "close-display-context" q) "close-display-context" =
      .error "No display-worker found while executing: close-display-context" :=
  (c5_broadcast_no_workers
    [⟨"other-queue", "running"⟩, ⟨"rpc-display-main", "down"⟩]
    (fun q => Reply.mk "close-display-context" q) "close-display-context"
    (by decide)).1

/-- C4: `setActive` is idempotent: when the atomically-read previous store
value already equals the requested context name, it resolves with `false`,
runs no reconciliation and publishes no `context-changed` event. -/
theorem c4_setActive_idempotent (store : Option String) (ctx : String) (reset : Bool)
    (env : RestoreEnv) (h : store = some ctx) :
    setActive store ctx reset env = .ok ⟨some ctx, .jsFalse, [], false⟩ := by
  unfold setActive
  rw [h]
  simp

/-- Witness for C4: activating `ctx-A` while `ctx-A` is already the stored
active context returns `false` with no reconciliation and no event. -/
theorem c4_setActive_idempotent_witness :
    setActive (some "ctx-A") "ctx-A" false envSample =
      .ok ⟨some "ctx-A", .jsFalse, [], false⟩ :=
  c4_setActive_idempotent (some "ctx-A") "ctx-A" false envSample rfl

/-- C1 counterexample: with previous active context `A`, activating `B`
resolves with the reconciliation result (here the `set-display-context`
reply array), which is not the previous context name `A`; so the claim
that `setActive` returns the previous context name fails on the code. -/
theorem c1_counterexample :
    setActive (some "A") "B" false envSample = .ok outSampleAB ∧
    outSampleAB.value ≠ JSVal.str "A" := by
  exact ⟨rfl, by decide⟩

/-- C1 (amended): when the atomically-read previous value differs from the
requested name, `setActive` runs reconciliation for the new context,
publishes one `context-changed` event carrying the new and previous
context names, and resolves with the reconciliation result (not the
previous name). -/
theorem c1_setActive_changes (store : Option String) (ctx : String) (reset : Bool)
    (env : RestoreEnv) (out : SetActiveOutcome)
    (hprev : store ≠ some ctx)
    (h : setActive store ctx reset env = .ok out) :
    out.reconcileRan = true ∧ out.events = [⟨ctx, store⟩] ∧
    ∃ r : RestoreResult,
      restoreFromDisplayWorkerStates (DisplayContextInit ctx []) reset env = .ok r ∧
      out.value = r.value ∧ out.store = r.store := by
  unfold setActive at h
  rw [if_pos hprev] at h
  split at h
  next e he => exact absurd h (by simp)
  next r hr =>
    rw [Except.ok.injEq] at h
    subst h
    exact ⟨rfl, rfl, r, hr, rfl, rfl⟩

/-- Witness for the amended C1 at the concrete run of the counterexample
environment. -/
theorem c1_setActive_changes_witness :
    outSampleAB.reconcileRan = true ∧ outSampleAB.events = [⟨"B", some "A"⟩] ∧
    ∃ r : RestoreResult,
      restoreFromDisplayWorkerStates (DisplayContextInit "B" []) false envSample = .ok r ∧
      outSampleAB.value = r.value ∧ outSampleAB.store = r.store :=
  c1_setActive_changes (some "A") "B" false envSample outSampleAB
    (by decide) rfl

/-- C10: `hideAll` unconditionally deletes the active-context pointer —
whatever the store held before — and resolves with the array of
per-display `hide-all-windows` replies. -/
theorem c10_hideAll_clears_pointer (store : Option String) (env : RestoreEnv) :
    (hideAll store env).1 = none ∧
    (hideAll store env).2 = (getDisplays env).map
      (fun kv => env.callReply ("rpc-display-" ++ kv.1) "hide-all-windows") :=
  ⟨rfl, rfl⟩

/-- C9: `getActive` rejects with `No display context is active` when the
store key is absent or empty, and otherwise resolves with a
`DisplayContext` carrying the stored name whose state is the result of
reconciling that context from worker-reported state. -/
theorem c9_getActive_spec (store : Option String) (env : RestoreEnv) :
    ((store = none ∨ store = some "") →
      getActive store env = .error "No display context is active") ∧
    (∀ n out, store = some n → n ≠ "" → getActive store env = .ok out →
      out.name = n ∧ ∃ r : RestoreResult,
        restoreFromDisplayWorkerStates (DisplayContextInit n []) false env = .ok r ∧
        out = r.dc) := by
  constructor
  · rintro (rfl | rfl)
    · rfl
    · rfl
  · rintro n out rfl hn h
    simp only [getActive] at h
    rw [if_neg hn] at h
    split at h
    next e he => exact absurd h (by simp)
    next r hr =>
      rw [Except.ok.injEq] at h
      subst h
      have hb := restore_ok_basic hr
      refine ⟨?_, r, hr, rfl⟩
      rw [hb.2]
      rfl

/-- Witness for C9: an absent key rejects, and the stored name `ctx`
resolves with the reconciled context of that name. -/
theorem c9_getActive_spec_witness :
    getActive none envSample = .error "No display context is active" ∧
    dcActiveSample.name = "ctx" :=
  ⟨(c9_getActive_spec none envSample).1 (Or.inl rfl),
   ((c9_getActive_spec (some "ctx") envSample).2 "ctx" dcActiveSample rfl
     (by decide) rfl).1⟩

/-- Deleting, one by one, exactly the keys of the entries matched by a
value predicate removes exactly the matching entries, provided the map's
keys are unique. -/
theorem clean_filter {α : Type} (m : List (String × α)) (f : α → String) (d : String)
    (hnd : (mapKeys m).Nodup) :
    ((m.filter (fun p => f p.2 == d)).map (fun p => p.1)).foldl
        (fun acc k => mapDelete acc k) m
      = m.filter (fun p => f p.2 != d) := by
  rw [foldl_mapDelete_eq_filter]
  apply List.filter_congr
  intro p hp
  by_cases hfd : (f p.2 == d) = true
  · have hmem : p.1 ∈ (m.filter (fun q => f q.2 == d)).map (fun q => q.1) :=
      List.mem_map.mpr ⟨p, List.mem_filter.mpr ⟨hp, hfd⟩, rfl⟩
    have hcon : ((m.filter (fun q => f q.2 == d)).map (fun q => q.1)).contains p.1 = true :=
      List.elem_eq_true_of_mem hmem
    rw [hcon]
    have : (f p.2 != d) = false := by
      rw [bne]
      rw [hfd]
      rfl
    rw [this]
    rfl
  · have hcon : ((m.filter (fun q => f q.2 == d)).map (fun q => q.1)).contains p.1 = false := by
      by_cases hc : ((m.filter (fun q => f q.2 == d)).map (fun q => q.1)).contains p.1 = true
      · exfalso
        have hmem := List.mem_of_elem_eq_true hc
        rcases List.mem_map.mp hmem with ⟨q, hq, hq1⟩
        rcases List.mem_filter.mp hq with ⟨hqm, hqd⟩
        have : q = p := List.inj_on_of_nodup_map hnd hqm hp hq1
        rw [this] at hqd
        exact hfd hqd
      · simpa using hc
    rw [hcon]
    have hf : (f p.2 == d) = false := by simpa using hfd
    have : (f p.2 != d) = true := by
      rw [bne]
      rw [hf]
      rfl
    rw [this]
    rfl

/-- C3: for every `close()` call whose broadcast resolved with replies `m`:
when some reply's command is `hide-display-context` the window map, pane
map and active-context pointer are unchanged and no `context-closed` event
is published; when no reply is hidden both maps are cleared, the pointer is
cleared only if it equals this context's name, and one `context-closed`
event carrying the aggregated replies is published; the call resolves with
the aggregated replies either way. -/
theorem c3_close_hidden_protocol (dc : DCState) (store : Option String) (env : RestoreEnv)
    (m : List Reply) (out : CloseResult)
    (hm : executeInAvailableDisplays env.queues
        (fun q => env.callReply q "close-display-context") "close-display-context" = .ok m)
    (h : closeContext dc store env = .ok out) :
    out.value = m ∧
    ((∃ res ∈ m, res.command = "hide-display-context") →
      out.dc = dc ∧ out.store = store ∧ out.closedEvents = []) ∧
    ((∀ res ∈ m, res.command ≠ "hide-display-context") →
      out.dc.displayWindows = [] ∧ out.dc.viewObjects = [] ∧
      out.store = (if store = some dc.name then none else store) ∧
      out.closedEvents = [m]) := by
  unfold closeContext at h
  split at h
  next e he =>
    rw [hm] at he
    exact absurd he (by simp)
  next ms hms =>
    rw [hm, Except.ok.injEq] at hms
    subst hms
    split at h
    next hHid =>
      rw [Except.ok.injEq] at h
      subst h
      refine ⟨rfl, ?_, ?_⟩
      · rintro ⟨res, hres, hcmd⟩
        exfalso
        rw [Bool.not_eq_true'] at hHid
        have := List.any_eq_false.mp hHid res hres
        rw [hcmd] at this
        simp at this
      · intro _
        exact ⟨rfl, rfl, rfl, rfl⟩
    next hHid =>
      rw [Except.ok.injEq] at h
      subst h
      refine ⟨rfl, ?_, ?_⟩
      · intro _
        exact ⟨rfl, rfl, rfl⟩
      · intro hall
        exfalso
        have hany : m.any (fun res => res.command == "hide-display-context") = true := by
          rcases Bool.eq_false_or_eq_true
              (m.any (fun res => res.command == "hide-display-context")) with hx | hx
          · exact hx
          · exact absurd (by rw [hx]; rfl) hHid
        rcases List.any_eq_true.mp hany with ⟨res, hres, hcmd⟩
        exact hall res hres (by simpa using hcmd)

/-- Environment like `envSample` whose worker answers the
`close-display-context` broadcast with a `hide-display-context` reply
(the worker refused to close and hid the context instead). -/
def envHidden : RestoreEnv :=
  { envSample with
    callReply := fun _ c =>
      if c = "close-display-context" then ⟨"hide-display-context", "success"⟩
      else ⟨c, "success"⟩ }

/-- Outcome of the hidden-reply close run used by the C3 witness. -/
def outCloseHidden : CloseResult :=
  ⟨dcActiveSample, some "ctx", [⟨"hide-display-context", "success"⟩], []⟩

/-- Outcome of the clean close run used by the C3 witness. -/
def outCloseClear : CloseResult :=
  ⟨clearMaps dcActiveSample, none, [⟨"close-display-context", "success"⟩],
   [[⟨"close-display-context", "success"⟩]]⟩

/-- Witness for C3 exercising both sides: under `envHidden` the maps,
pointer and event list are untouched; under `envSample` (a clean close)
the maps are cleared, the pointer compare-then-cleared and one
`context-closed` event carrying the aggregated replies is published. -/
theorem c3_close_hidden_protocol_witness :
    (outCloseHidden.dc = dcActiveSample ∧ outCloseHidden.store = some "ctx" ∧
      outCloseHidden.closedEvents = []) ∧
    (outCloseClear.dc.displayWindows = [] ∧ outCloseClear.dc.viewObjects = [] ∧
      outCloseClear.store =
        (if (some "ctx" : Option String) = some dcActiveSample.name then none
         else some "ctx") ∧
      outCloseClear.closedEvents = [[⟨"close-display-context", "success"⟩]]) :=
  ⟨(c3_close_hidden_protocol dcActiveSample (some "ctx") envHidden
      [⟨"hide-display-context", "success"⟩] outCloseHidden rfl rfl).2.1
      ⟨⟨"hide-display-context", "success"⟩, by decide, rfl⟩,
   (c3_close_hidden_protocol dcActiveSample (some "ctx") envSample
      [⟨"close-display-context", "success"⟩] outCloseClear rfl rfl).2.2
      (by decide)⟩

/-- C7: a worker-removal event (removal topic with payload `d`, or a
queue-deleted notification for a `rpc-display-` reply channel whose
stripped name is `d`) invokes `_clean`, which removes exactly the
WindowRecords owned by `d`, then exactly the PaneRecords owned by `d`
(windows before panes, on maps with unique keys), and reports to the quit
callback exactly `d`, the removed window names and the removed pane
ids. -/
theorem c7_clean_on_removal (dc : DCState) (d : String) (qn : String)
    (hndw : (mapKeys dc.displayWindows).Nodup)
    (hnvo : (mapKeys dc.viewObjects).Nodup)
    (hqn : containsSub qn "rpc-display-" = true)
    (hstrip : replaceFirst qn "rpc-display-" = d) :
    handleRemoval dc (.topicRemoved d) = some (_clean dc d) ∧
    handleRemoval dc (.queueDeleted qn) = some (_clean dc d) ∧
    (_clean dc d).1.displayWindows =
      dc.displayWindows.filter (fun p => p.2.displayName != d) ∧
    (_clean dc d).1.viewObjects =
      dc.viewObjects.filter (fun p => p.2.displayName != d) ∧
    (_clean dc d).2 =
      ⟨d, (dc.displayWindows.filter (fun p => p.2.displayName == d)).map (fun p => p.1),
         (dc.viewObjects.filter (fun p => p.2.displayName == d)).map (fun p => p.1)⟩ := by
  refine ⟨rfl, ?_, ?_, ?_, rfl⟩
  · show (if containsSub qn "rpc-display-" = true
        then some (_clean dc (replaceFirst qn "rpc-display-")) else none) =
      some (_clean dc d)
    rw [if_pos hqn, hstrip]
  · exact clean_filter dc.displayWindows (fun w => w.displayName) d hndw
  · exact clean_filter dc.viewObjects (fun v => v.displayName) d hnvo

/-- Context `alpha` of the C7 scenario: one window `main` and one pane
`p1` owned by `main`, both hosted on worker `D1`. -/
def dcAlpha : DCState :=
  ⟨"alpha", [("main", ⟨"main", "D1"⟩)], [("p1", ⟨"p1", "D1", "main"⟩)], none⟩

/-- Witness for C7 on the spec's scenario: a removal event for `D1`
removes both `main` and `p1` and reports
`closedWindows = ["main"], closedViewObjects = ["p1"]`; the queue-deleted
notification for `rpc-display-D1` triggers the same cleanup. -/
theorem c7_clean_on_removal_witness :
    (_clean dcAlpha "D1").1.displayWindows = [] ∧
    (_clean dcAlpha "D1").1.viewObjects = [] ∧
    (_clean dcAlpha "D1").2 = ⟨"D1", ["main"], ["p1"]⟩ ∧
    handleRemoval dcAlpha (.topicRemoved "D1") = some (_clean dcAlpha "D1") ∧
    handleRemoval dcAlpha (.queueDeleted "rpc-display-D1") = some (_clean dcAlpha "D1") := by
  have h := c7_clean_on_removal dcAlpha "D1" "rpc-display-D1"
    (by decide) (by decide) (by decide) (by decide)
  refine ⟨?_, ?_, ?_, h.1, h.2.1⟩
  · rw [h.2.2.1]; rfl
  · rw [h.2.2.2.1]; rfl
  · rw [h.2.2.2.2]; rfl

/-- C2: for every reconciliation run the branch is a function of the reply
snapshot: the initialization path (derive bounds, issue `create-window`
requests, populate window records) is taken iff the total window count
across all replies is zero; with a nonzero count and the reset flag the
context is marked active and every known pane is reloaded; with a nonzero
count and no reset flag the context is only marked active, with no reloads
and no window creation. -/
theorem c2_restore_branching (dc0 : DCState) (reset : Bool) (env : RestoreEnv)
    (states : List WorkerState) (r : RestoreResult)
    (hstates : executeInAvailableDisplays env.queues env.describeReply
        "get-dw-context-windows-vbo" = .ok states)
    (hr : restoreFromDisplayWorkerStates dc0 reset env = .ok r) :
    (r.branch = .initialization ↔ (states.map (fun s => s.windows.length)).sum = 0)
    ∧ ((states.map (fun s => s.windows.length)).sum = 0 →
        ∃ dc2 bounds q,
          getWindowBounds (states.foldl restoreStep (clearMaps dc0, 0)).1 env =
            .ok (dc2, bounds) ∧
          initContext dc2 env bounds = .ok q ∧
          r = ⟨q.dc, q.store, .windowMap q.map, .initialization, q.created, []⟩)
    ∧ ((states.map (fun s => s.windows.length)).sum ≠ 0 → reset = true →
        r.branch = .resetShow ∧ r.store = some dc0.name ∧
        r.reloaded = r.dc.viewObjects.map (fun kv => kv.1) ∧ r.created = [])
    ∧ ((states.map (fun s => s.windows.length)).sum ≠ 0 → reset = false →
        r.branch = .showOnly ∧ r.store = some dc0.name ∧
        r.reloaded = [] ∧ r.created = []) := by
  have hcnt : (states.foldl restoreStep (clearMaps dc0, 0)).2 =
      (states.map (fun s => s.windows.length)).sum := by
    rw [foldl_restoreStep_snd]
    simp
  have hname : (states.foldl restoreStep (clearMaps dc0, 0)).1.name = dc0.name :=
    foldl_restoreStep_name states (clearMaps dc0, 0)
  simp only [restoreFromDisplayWorkerStates] at hr
  split at hr
  next e he =>
    rw [hstates] at he
    exact absurd he (by simp)
  next sts hsts =>
    rw [hstates, Except.ok.injEq] at hsts
    subst hsts
    split at hr
    next hc =>
      split at hr
      next e he => exact absurd hr (by simp)
      next dc2 bounds hg =>
        split at hr
        next e he => exact absurd hr (by simp)
        next q hq =>
          rw [Except.ok.injEq] at hr
          subst hr
          refine ⟨?_, ?_, ?_, ?_⟩
          · constructor
            · intro _
              rw [← hcnt]
              exact hc
            · intro _
              rfl
          · intro _
            exact ⟨dc2, bounds, q, hg, hq, rfl⟩
          · intro hs _
            exact absurd (hcnt ▸ hc) hs
          · intro hs _
            exact absurd (hcnt ▸ hc) hs
    next hc =>
      have hsum : (states.map (fun s => s.windows.length)).sum ≠ 0 := by
        intro hs
        exact hc (by rw [hcnt]; exact hs)
      split at hr
      next hreset =>
        split at hr
        next e he => exact absurd hr (by simp)
        next store1 m hshow =>
          rw [Except.ok.injEq] at hr
          subst hr
          refine ⟨?_, ?_, ?_, ?_⟩
          · constructor
            · intro hb
              exact absurd hb (by simp)
            · intro hs
              exact absurd hs hsum
          · intro hs
            exact absurd hs hsum
          · intro _ _
            refine ⟨rfl, ?_, rfl, rfl⟩
            show store1 = some dc0.name
            rw [(showContext_ok hshow).1, hname]
          · intro _ hf
            rw [hf] at hreset
            exact absurd hreset (by simp)
      next hreset =>
        have hf : reset = false := by
          rcases Bool.eq_false_or_eq_true reset with hx | hx
          · exact absurd hx hreset
          · exact hx
        split at hr
        next e he => exact absurd hr (by simp)
        next store1 m hshow =>
          rw [Except.ok.injEq] at hr
          subst hr
          refine ⟨?_, ?_, ?_, ?_⟩
          · constructor
            · intro hb
              exact absurd hb (by simp)
            · intro hs
              exact absurd hs hsum
          · intro hs
            exact absurd hs hsum
          · intro _ ht
            rw [ht] at hf
            exact absurd hf (by simp)
          · intro _ _
            refine ⟨rfl, ?_, rfl, rfl⟩
            show store1 = some dc0.name
            rw [(showContext_ok hshow).1, hname]

/-- Reconciliation result of `restoreFromDisplayWorkerStates` for a fresh
context `B` under `envSample` (one reported window, so the show-only
branch). -/
def rSampleB : RestoreResult :=
  ⟨⟨"B", [("main", ⟨"main", "main"⟩)], [("vo1", ⟨"vo1", "main", "main"⟩)], none⟩,
   some "B", .replies [⟨"set-display-context", "success"⟩], .showOnly, [], []⟩

/-- Witness for C2: under `envSample` one window is reported (count 1), so
the run takes the fast show-only branch: marked active, nothing reloaded,
nothing created. -/
theorem c2_restore_branching_witness :
    rSampleB.branch = .showOnly ∧ rSampleB.store = some "B" ∧
    rSampleB.reloaded = [] ∧ rSampleB.created = [] :=
  (c2_restore_branching (DisplayContextInit "B" []) false envSample
      [⟨[("main", ⟨"main", "main"⟩)], [("vo1", "main")]⟩] rSampleB rfl rfl).2.2.2
    (by decide) rfl

/-- All window keys reported anywhere in one broadcast's reply snapshot. -/
def winKeysOf (states : List WorkerState) : List String :=
  states.flatMap (fun s => s.windows.map (fun kv => kv.1))

theorem winKeysOf_mem {states : List WorkerState} {st : WorkerState}
    {kv : String × WorkerWindowOpts} (hst : st ∈ states) (hkv : kv ∈ st.windows) :
    kv.1 ∈ winKeysOf states :=
  List.mem_flatMap.mpr ⟨st, hst, List.mem_map.mpr ⟨kv, hkv, rfl⟩⟩

/-- Invariant maintained by the `states.forEach` replay loop: every cached
window key was reported by some worker, every cached window record carries
its own key as `windowName` (for well-formed replies), every cached pane's
back-reference is a present window key, and every cached pane stems from a
reported pane entry whose declared window is among the snapshot's window
keys. -/
def RestoreInv (states : List WorkerState) (dc : DCState) : Prop :=
  (∀ k, k ∈ mapKeys dc.displayWindows → k ∈ winKeysOf states) ∧
  (∀ p, p ∈ dc.displayWindows → p.2.windowName = p.1) ∧
  (∀ p, p ∈ dc.viewObjects → p.2.windowName ∈ mapKeys dc.displayWindows) ∧
  (∀ p, p ∈ dc.viewObjects → ∃ s, s ∈ states ∧ ∃ pv, pv ∈ s.viewObjects ∧
    pv.1 = p.1 ∧ pv.2 ∈ winKeysOf states)

theorem RestoreInv_insert_window (states : List WorkerState) (dc : DCState)
    (hinv : RestoreInv states dc) (st : WorkerState) (hst : st ∈ states)
    (kv : String × WorkerWindowOpts) (hkv : kv ∈ st.windows)
    (hwfk : kv.2.windowName = kv.1) :
    RestoreInv states
      { dc with displayWindows := mapSet dc.displayWindows kv.1 ⟨kv.2.windowName, kv.2.displayName⟩ } := by
  obtain ⟨h1, h2, h3, h4⟩ := hinv
  refine ⟨?_, ?_, ?_, h4⟩
  · intro k hk
    rcases mapKeys_mapSet.mp hk with hke | hk2
    · rw [hke]
      exact winKeysOf_mem hst hkv
    · exact h1 k hk2
  · intro p hp
    rcases mapSet_mem hp with hpe | hp2
    · rw [hpe]
      exact hwfk
    · exact h2 p hp2
  · intro p hp
    exact mapKeys_mapSet.mpr (Or.inr (h3 p hp))

theorem RestoreInv_insert_pane (states : List WorkerState) (dc : DCState)
    (hinv : RestoreInv states dc) (st : WorkerState) (hst : st ∈ states)
    (kv : String × String) (hkv : kv ∈ st.viewObjects)
    (wn : DisplayWindowRec) (hget : mapGet dc.displayWindows kv.2 = some wn) :
    RestoreInv states
      { dc with viewObjects := mapSet dc.viewObjects kv.1 ⟨kv.1, wn.displayName, wn.windowName⟩ } := by
  obtain ⟨h1, h2, h3, h4⟩ := hinv
  have hmem := mapGet_eq_some_mem hget
  have hwn : wn.windowName = kv.2 := h2 (kv.2, wn) hmem
  have hkey : kv.2 ∈ mapKeys dc.displayWindows := List.mem_map.mpr ⟨(kv.2, wn), hmem, rfl⟩
  refine ⟨h1, h2, ?_, ?_⟩
  · intro p hp
    rcases mapSet_mem hp with hpe | hp2
    · rw [hpe]
      show wn.windowName ∈ mapKeys dc.displayWindows
      rw [hwn]
      exact hkey
    · exact h3 p hp2
  · intro p hp
    rcases mapSet_mem hp with hpe | hp2
    · rw [hpe]
      exact ⟨st, hst, kv, hkv, rfl, h1 kv.2 hkey⟩
    · exact h4 p hp2

theorem restoreStep_inv (states : List WorkerState)
    (hwf : ∀ s, s ∈ states → ∀ kv, kv ∈ s.windows → kv.2.windowName = kv.1)
    (a : DCState × Nat) (st : WorkerState) (hst : st ∈ states)
    (hinv : RestoreInv states a.1) : RestoreInv states (restoreStep a st).1 := by
  have hW : RestoreInv states (addWindows a.1 a.2 st.windows).1 := by
    unfold addWindows
    apply foldl_preserves _ (fun x => RestoreInv states x.1) st.windows (a.1, a.2) hinv
    intro x b hb hx
    exact RestoreInv_insert_window states x.1 hx st hst b hb (hwf st hst b hb)
  show RestoreInv states (addPanes (addWindows a.1 a.2 st.windows).1 st.viewObjects)
  unfold addPanes
  apply foldl_preserves _ (fun d => RestoreInv states d) st.viewObjects _ hW
  intro x b hb hx
  cases hg : mapGet x.displayWindows b.2 with
  | none => simpa [hg] using hx
  | some wn =>
      have hres := RestoreInv_insert_pane states x hx st hst b hb wn hg
      simpa [hg] using hres

theorem RestoreInv_clearMaps (states : List WorkerState) (dc0 : DCState) :
    RestoreInv states (clearMaps dc0) := by
  refine ⟨?_, ?_, ?_, ?_⟩ <;> intro p hp <;> simp [clearMaps, mapKeys] at hp

theorem foldl_restoreStep_inv (states : List WorkerState)
    (hwf : ∀ s, s ∈ states → ∀ kv, kv ∈ s.windows → kv.2.windowName = kv.1)
    (a : DCState × Nat) (ha : RestoreInv states a.1) :
    RestoreInv states (states.foldl restoreStep a).1 := by
  apply foldl_preserves restoreStep (fun x => RestoreInv states x.1) states a ha
  intro x st hst hx
  exact restoreStep_inv states hwf x st hst hx

theorem restore_ok_maps {dc0 : DCState} {reset : Bool} {env : RestoreEnv}
    {states : List WorkerState} {r : RestoreResult}
    (hstates : executeInAvailableDisplays env.queues env.describeReply
        "get-dw-context-windows-vbo" = .ok states)
    (hr : restoreFromDisplayWorkerStates dc0 reset env = .ok r) :
    r.dc.viewObjects = (states.foldl restoreStep (clearMaps dc0, 0)).1.viewObjects ∧
    (∀ k, k ∈ mapKeys (states.foldl restoreStep (clearMaps dc0, 0)).1.displayWindows →
      k ∈ mapKeys r.dc.displayWindows) := by
  simp only [restoreFromDisplayWorkerStates] at hr
  split at hr
  next e he =>
    rw [hstates] at he
    exact absurd he (by simp)
  next sts hsts =>
    rw [hstates, Except.ok.injEq] at hsts
    subst hsts
    split at hr
    next hc =>
      split at hr
      next e he => exact absurd hr (by simp)
      next dc2 bounds hg =>
        split at hr
        next e he => exact absurd hr (by simp)
        next q hq =>
          rw [Except.ok.injEq] at hr
          subst hr
          have h2 := getWindowBounds_ok _ _ _ _ hg
          have h1 := initContext_ok hq
          constructor
          · show q.dc.viewObjects = _
            rw [h1.2.1, h2.2.2]
          · intro k hk
            apply h1.2.2.2.2 k
            rw [h2.2.1]
            exact hk
    next hc =>
      split at hr
      next hreset =>
        split at hr
        next e he => exact absurd hr (by simp)
        next store1 m hshow =>
          rw [Except.ok.injEq] at hr
          subst hr
          exact ⟨rfl, fun k hk => hk⟩
      next hreset =>
        split at hr
        next e he => exact absurd hr (by simp)
        next store1 m hshow =>
          rw [Except.ok.injEq] at hr
          subst hr
          exact ⟨rfl, fun k hk => hk⟩

/-- C6: during reconciliation (with well-formed replies whose window
entries carry their own key as `windowName`), a pane id all of whose
reported entries name an owning window absent from the windows gathered in
the same pass ends up absent from the pane map (silently dropped, not an
error), and every pane record of the reconciled context resolves to a
window record present in the same context. -/
theorem c6_no_dangling_panes (dc0 : DCState) (reset : Bool) (env : RestoreEnv)
    (states : List WorkerState) (r : RestoreResult)
    (hstates : executeInAvailableDisplays env.queues env.describeReply
        "get-dw-context-windows-vbo" = .ok states)
    (hwf : ∀ s, s ∈ states → ∀ kv, kv ∈ s.windows → kv.2.windowName = kv.1)
    (hr : restoreFromDisplayWorkerStates dc0 reset env = .ok r) :
    (∀ pid, (∀ s, s ∈ states → ∀ pv, pv ∈ s.viewObjects → pv.1 = pid →
        pv.2 ∉ winKeysOf states) → mapGet r.dc.viewObjects pid = none)
    ∧ (∀ p, p ∈ r.dc.viewObjects →
        ∃ w, mapGet r.dc.displayWindows p.2.windowName = some w) := by
  have hinv : RestoreInv states (states.foldl restoreStep (clearMaps dc0, 0)).1 :=
    foldl_restoreStep_inv states hwf (clearMaps dc0, 0) (RestoreInv_clearMaps states dc0)
  have hmaps := restore_ok_maps hstates hr
  obtain ⟨h1, h2, h3, h4⟩ := hinv
  constructor
  · intro pid hnone
    cases hg : mapGet r.dc.viewObjects pid with
    | none => rfl
    | some v =>
        exfalso
        have hmem := mapGet_eq_some_mem hg
        rw [hmaps.1] at hmem
        rcases h4 (pid, v) hmem with ⟨s, hs, pv, hpv, hpid, hwin⟩
        exact hnone s hs pv hpv hpid hwin
  · intro p hp
    rw [hmaps.1] at hp
    have hk := h3 p hp
    have hk2 := hmaps.2 _ hk
    have hs := mapGet_isSome_iff.mpr hk2
    rcases Option.isSome_iff_exists.mp hs with ⟨w, hw⟩
    exact ⟨w, hw⟩

/-- Environment whose worker reports one window `main`, a resolvable pane
`vo1 → main`, and a pane `ghost → nope` whose owning window is absent from
the pass. -/
def envC6 : RestoreEnv :=
  { envSample with
    describeReply := fun _ =>
      ⟨[("main", ⟨"main", "main"⟩)], [("vo1", "main"), ("ghost", "nope")]⟩ }

/-- Reconciliation result for a fresh context `C` under `envC6`: `ghost`
is dropped, `vo1` is kept. -/
def rC6 : RestoreResult :=
  ⟨⟨"C", [("main", ⟨"main", "main"⟩)], [("vo1", ⟨"vo1", "main", "main"⟩)], none⟩,
   some "C", .replies [⟨"set-display-context", "success"⟩], .showOnly, [], []⟩

/-- Witness for C6: in the concrete run the unresolvable pane `ghost` is
absent from the reconciled pane map and the surviving pane `vo1` resolves
to a present window record. -/
theorem c6_no_dangling_panes_witness :
    mapGet rC6.dc.viewObjects "ghost" = none ∧
    ∃ w, mapGet rC6.dc.displayWindows "main" = some w :=
  ⟨(c6_no_dangling_panes (DisplayContextInit "C" []) false envC6
      [⟨[("main", ⟨"main", "main"⟩)], [("vo1", "main"), ("ghost", "nope")]⟩] rC6 rfl
      (by decide) rfl).1 "ghost" (by decide),
   (c6_no_dangling_panes (DisplayContextInit "C" []) false envC6
      [⟨[("main", ⟨"main", "main"⟩)], [("vo1", "main"), ("ghost", "nope")]⟩] rC6 rfl
      (by decide) rfl).2 ("vo1", ⟨"vo1", "main", "main"⟩) (by decide)⟩

/-- Context for the C8 scenario: no cached `WindowRecord`, but `sidebar`
is declared in the caller-supplied layout bounds. -/
def dcSidebar : DCState :=
  ⟨"ctx8", [], [], some [("sidebar", ⟨some "main", some "sidebar"⟩)]⟩

/-- C8 (code bug): in the missing-window path, a cache miss on a window
name absent from both the cache and the derivable bounds rejects with the
named-window-not-found error, as the claim says; but on a cache miss for a
window name that *is* among the declared bounds, `createViewObject` only
runs the initialization path and then never settles — the promise executor
calls neither `resolve` nor `reject`, so the chained retry never executes
and pane creation is never retried, contradicting the claimed
retry-exactly-once behavior. -/
theorem c8_createViewObject_bug :
    (createViewObject dcSidebar none envSample "sidebar").outcome = .neverSettles ∧
    (createViewObject dcSidebar none envSample "sidebar").initRan = true ∧
    (∀ vid, (createViewObject dcSidebar none envSample "sidebar").outcome ≠ .created vid) ∧
    (createViewObject dcSidebar none envSample "missing").outcome =
      .rejected "windowName missing is not defined by the user. Inferencing based on existing display-workers also failed." := by
  refine ⟨rfl, rfl, ?_, rfl⟩
  intro vid
  intro h
  rw [show (createViewObject dcSidebar none envSample "sidebar").outcome =
    CVOOutcome.neverSettles from rfl] at h
  exact absurd h (by simp)
